import Mathlib

/-!
Verification development for the retrieval core in `rag_core.py`
(TF-IDF based retrieval-augmented search). Python strings are embedded
as `List Char`, bytes as `List Nat`. Stateful methods are embedded as
explicit state-passing functions; a Python method that can raise is
embedded with an explicit error outcome (`Except`, or a `Bool` flag
when the partially mutated state matters). Floating point arithmetic
of numpy/sklearn is idealised over `ℝ`; every control-flow decision of
the source is kept exact and computable.
-/

/-- Python strings, embedded as lists of characters. -/
abbrev Str := List Char

/-- Whitespace as recognised by Python `str.strip()` / `str.isspace()`
(the Unicode whitespace code points). -/
def isPySpace (c : Char) : Bool :=
  c.toNat = 9 || c.toNat = 10 || c.toNat = 11 || c.toNat = 12 || c.toNat = 13 ||
  c.toNat = 28 || c.toNat = 29 || c.toNat = 30 || c.toNat = 31 || c.toNat = 32 ||
  c.toNat = 133 || c.toNat = 160 || c.toNat = 5760 ||
  (8192 ≤ c.toNat && c.toNat ≤ 8202) ||
  c.toNat = 8232 || c.toNat = 8233 || c.toNat = 8239 || c.toNat = 8287 ||
  c.toNat = 12288

/-- Python `s.strip()`: drop leading and trailing whitespace. -/
def pyStrip (s : Str) : Str :=
  ((s.dropWhile isPySpace).reverse.dropWhile isPySpace).reverse

/-- Python `sep.join(l)`. -/
def pyJoin (sep : Str) : List Str → Str
  | [] => []
  | [x] => x
  | x :: y :: rest => x ++ sep ++ pyJoin sep (y :: rest)

/-- Split a string at every occurrence of the character `sep`
(Python `re.split` on a single escaped character, as used by
langchain `CharacterTextSplitter` with `separator="\n"`). -/
def splitOnChar (sep : Char) : Str → List Str
  | [] => [[]]
  | c :: rest =>
    if c = sep then [] :: splitOnChar sep rest
    else
      match splitOnChar sep rest with
      | [] => [[c]]
      | hd :: tl => (c :: hd) :: tl

/-- `s` occurs as a contiguous substring of `t`. -/
def SubStr (s t : Str) : Prop := ∃ a b, t = a ++ s ++ b

/-- Is this byte a UTF-8 continuation byte (0x80–0xBF)? -/
def isCont (b : Nat) : Bool := 0x80 ≤ b && b ≤ 0xBF

/-- Valid second byte of a 3-byte UTF-8 sequence for lead `b`
(E0 narrows to A0–BF, ED excludes surrogates). -/
def validSecond3 (b c : Nat) : Bool :=
  if b = 0xE0 then 0xA0 ≤ c && c ≤ 0xBF
  else if b = 0xED then 0x80 ≤ c && c ≤ 0x9F
  else isCont c

/-- Valid second byte of a 4-byte UTF-8 sequence for lead `b`
(F0 narrows to 90–BF, F4 to 80–8F). -/
def validSecond4 (b c : Nat) : Bool :=
  if b = 0xF0 then 0x90 ≤ c && c ≤ 0xBF
  else if b = 0xF4 then 0x80 ≤ c && c ≤ 0x8F
  else isCont c

/-- CPython `bytes.decode("utf-8", errors="ignore")`: decode valid UTF-8
sequences, silently skipping each maximal invalid subpart. The decoder is
total — with the `ignore` handler it can never raise. -/
def utf8DecodeIgnore : List Nat → Str
  | [] => []
  | b :: rest =>
    if b < 0x80 then Char.ofNat b :: utf8DecodeIgnore rest
    else if 0xC2 ≤ b && b ≤ 0xDF then
      match rest with
      | [] => []
      | c1 :: r1 =>
        if isCont c1 then
          Char.ofNat ((b - 0xC0) * 0x40 + (c1 - 0x80)) :: utf8DecodeIgnore r1
        else utf8DecodeIgnore (c1 :: r1)
    else if 0xE0 ≤ b && b ≤ 0xEF then
      match rest with
      | [] => []
      | c1 :: r1 =>
        if validSecond3 b c1 then
          match r1 with
          | [] => []
          | c2 :: r2 =>
            if isCont c2 then
              Char.ofNat ((b - 0xE0) * 0x1000 + (c1 - 0x80) * 0x40 + (c2 - 0x80)) ::
                utf8DecodeIgnore r2
            else utf8DecodeIgnore (c2 :: r2)
        else utf8DecodeIgnore (c1 :: r1)
    else if 0xF0 ≤ b && b ≤ 0xF4 then
      match rest with
      | [] => []
      | c1 :: r1 =>
        if validSecond4 b c1 then
          match r1 with
          | [] => []
          | c2 :: r2 =>
            if isCont c2 then
              match r2 with
              | [] => []
              | c3 :: r3 =>
                if isCont c3 then
                  Char.ofNat ((b - 0xF0) * 0x40000 + (c1 - 0x80) * 0x1000 +
                      (c2 - 0x80) * 0x40 + (c3 - 0x80)) :: utf8DecodeIgnore r3
                else utf8DecodeIgnore (c3 :: r3)
            else utf8DecodeIgnore (c2 :: r2)
        else utf8DecodeIgnore (c1 :: r1)
    else utf8DecodeIgnore rest

/-- ASCII lowercasing of a string (Python `str.lower()`; the sources only
ever branch on ASCII content, non-ASCII letters are kept unchanged). -/
def asciiLower (s : Str) : Str := s.map Char.toLower

/-- `load_file_to_text(file_bytes, filename)` from `rag_core.py`.
The function computes `filename.lower()` but never uses it; the first
`try` block decodes with `errors="ignore"`, which is total in CPython,
so the `cp949` fallback and the final `return ""` are dead code and the
embedding returns the UTF-8 lossy decoding directly. -/
def load_file_to_text (fileBytes : List Nat) (filename : Str) : Str :=
  let _lowerName := asciiLower filename
  utf8DecodeIgnore fileBytes

/-! ## Chunker: langchain `CharacterTextSplitter` with `separator="\n"`,
`length_function=len`, `keep_separator=False`, `strip_whitespace=True`,
as invoked by `split_text_to_chunks`. -/

/-- `_split_text_with_regex`: split on the separator and drop empty pieces. -/
def splitKeepNonEmpty (text : Str) : List Str :=
  (splitOnChar '\n' text).filter (fun s => !s.isEmpty)

/-- `_join_docs`: join the pending pieces with the separator, strip
whitespace, and drop the result when it is empty. -/
def joinDocs (sep : Str) (docs : List Str) : Option Str :=
  let text := pyStrip (pyJoin sep docs)
  if text.isEmpty then none else some text

/-- The inner `while` loop of `_merge_splits`: pop pieces from the front of
the current window until the running total is within the overlap budget.
`total` is the running total of piece lengths plus separators (always the
exact sum, hence never negative in the source, and zero when the window is
empty, so the loop guard is necessarily false on an empty window). -/
def popLoop (chunkSize chunkOverlap len : Nat) :
    List Str → Nat → List Str × Nat
  | [], total => ([], total)
  | c :: t, total =>
    if total > chunkOverlap ∨ (total + len + 1 > chunkSize ∧ total > 0) then
      popLoop chunkSize chunkOverlap len t
        (total - (c.length + if t.isEmpty then 0 else 1))
    else (c :: t, total)

/-- The main loop of `_merge_splits`: greedily pack pieces into chunks of
length at most `chunkSize`, carrying back up to `chunkOverlap` characters
of trailing content when a new chunk is started. -/
def mergeLoop (chunkSize chunkOverlap : Nat) :
    List Str → List Str → List Str → Nat → List Str
  | [], docs, cur, _ => docs ++ (joinDocs ['\n'] cur).toList
  | d :: rest, docs, cur, total =>
    let len := d.length
    if total + len + (if cur.isEmpty then 0 else 1) > chunkSize then
      if cur.isEmpty then
        mergeLoop chunkSize chunkOverlap rest docs [d] len
      else
        let docs2 := docs ++ (joinDocs ['\n'] cur).toList
        let pair := popLoop chunkSize chunkOverlap len cur total
        mergeLoop chunkSize chunkOverlap rest docs2 (pair.1 ++ [d])
          (pair.2 + len + (if pair.1.isEmpty then 0 else 1))
    else
      mergeLoop chunkSize chunkOverlap rest docs (cur ++ [d])
        (total + len + (if cur.isEmpty then 0 else 1))

/-- `split_text_to_chunks(text, chunk_size, chunk_overlap)` from
`rag_core.py` (defaults 500 and 100). -/
def split_text_to_chunks (text : Str) (chunkSize : Nat := 500)
    (chunkOverlap : Nat := 100) : List Str :=
  mergeLoop chunkSize chunkOverlap (splitKeepNonEmpty text) [] [] 0

/-! ## TF-IDF vector store: sklearn `TfidfVectorizer` (default settings)
and `SimpleVectorStore` from `rag_core.py`. -/

/-- One character of a `\w` word as classified by sklearn's default token
pattern (Python `\w`: alphanumeric or underscore). On ASCII the predicate
is exact. Off ASCII, Python's `\w` (Unicode alphanumerics) is
approximated from above: Unicode whitespace and the common punctuation,
symbol and emoji blocks — all free of Unicode alphanumerics — are
excluded, and every remaining non-ASCII code point is kept. The widening
only ever errs by accepting a character Python would reject, so "no word
character in the widened sense" still implies "no word character for
Python"; statements whose meaning depends on the exact boundary restrict
themselves to ASCII content, where the predicate is exact. -/
def isWordChar (c : Char) : Bool :=
  if c.toNat < 128 then c.isAlphanum || c = '_'
  else
    !(isPySpace c ||
      (0x2000 ≤ c.toNat && c.toNat ≤ 0x206F) ||
      (0x3001 ≤ c.toNat && c.toNat ≤ 0x3003) ||
      (0x3008 ≤ c.toNat && c.toNat ≤ 0x3011) ||
      (0x3014 ≤ c.toNat && c.toNat ≤ 0x301F) ||
      (0xFF01 ≤ c.toNat && c.toNat ≤ 0xFF0F) ||
      (0xFF1A ≤ c.toNat && c.toNat ≤ 0xFF20) ||
      (0xFF3B ≤ c.toNat && c.toNat ≤ 0xFF40) ||
      (0xFF5B ≤ c.toNat && c.toNat ≤ 0xFF65) ||
      (0x2700 ≤ c.toNat && c.toNat ≤ 0x2775) ||
      (0x2794 ≤ c.toNat && c.toNat ≤ 0x27BF) ||
      (0x1F300 ≤ c.toNat && c.toNat ≤ 0x1F6FF) ||
      (0x1F900 ≤ c.toNat && c.toNat ≤ 0x1F9FF))

/-- sklearn's default analyzer: lowercase, then the maximal runs of word
characters of length at least two (token pattern `\b\w\w+\b`). -/
def tokenize (s : Str) : List Str :=
  let rec go (run : Str) : Str → List Str
    | [] => if run.length ≥ 2 then [run.reverse] else []
    | c :: rest =>
      if isWordChar c then go (c :: run) rest
      else (if run.length ≥ 2 then [run.reverse] else []) ++ go [] rest
  go [] (asciiLower s)

/-- Code-point lexicographic order on strings (Python `<` on `str`),
used by sklearn to sort the fitted vocabulary. -/
def lexLe : Str → Str → Bool
  | [], _ => true
  | _ :: _, [] => false
  | a :: s, b :: t =>
    if a.toNat < b.toNat then true
    else if b.toNat < a.toNat then false
    else lexLe s t

/-- The fitted vocabulary of `TfidfVectorizer`: the sorted set of tokens
occurring in the corpus. -/
def buildVocab (chunks : List Str) : List Str :=
  List.insertionSort (fun s t => lexLe s t = true)
    ((chunks.flatMap tokenize).dedup)

/-- The state of a `SimpleVectorStore`: the chunk list, and the fitted
vocabulary when `self.matrix` is not `None` (`fitted = none` embeds the
`matrix is None` case of an empty chunk list). -/
structure SimpleVectorStore where
  chunks : List Str
  fitted : Option (List Str)
deriving DecidableEq, Repr

/-- `SimpleVectorStore.__init__`: fit the TF-IDF matrix over the chunks.
In sklearn, `fit_transform` raises `ValueError: empty vocabulary` when
the corpus is non-empty but yields no token; the `.error` case embeds
that exception. -/
def SimpleVectorStore.init (chunks : List Str) :
    Except Unit SimpleVectorStore :=
  if chunks.isEmpty then .ok ⟨chunks, none⟩
  else if buildVocab chunks = [] then .error ()
  else .ok ⟨chunks, some (buildVocab chunks)⟩

/-- `build_vectorstore_from_chunks` from `rag_core.py`: `None` on an empty
chunk list (embedded `.ok none`), otherwise a fitted store; propagates the
sklearn empty-vocabulary exception (`.error`). -/
def build_vectorstore_from_chunks (chunks : List Str) :
    Except Unit (Option SimpleVectorStore) :=
  if chunks.isEmpty then .ok none
  else (SimpleVectorStore.init chunks).map some

/-! Numeric layer: numpy float arithmetic idealised over `ℝ`. Only the
shape and order of the results feed back into the control flow, never the
real values themselves, so these definitions may be noncomputable. -/

/-- Number of occurrences of token `t` in a text (raw term frequency). -/
def termCount (t : Str) (text : Str) : Nat := (tokenize text).count t

/-- Document frequency of token `t` over the corpus. -/
def docFreq (t : Str) (chunks : List Str) : Nat :=
  (chunks.filter (fun c => termCount t c ≥ 1)).length

/-- Smoothed idf of sklearn (`smooth_idf=True`):
`ln((1 + n) / (1 + df)) + 1`. -/
noncomputable def idf (chunks : List Str) (t : Str) : ℝ :=
  Real.log ((1 + (chunks.length : ℝ)) / (1 + (docFreq t chunks : ℝ))) + 1

/-- Dot product of two vectors given as lists. -/
noncomputable def dotList (u v : List ℝ) : ℝ :=
  ((u.zip v).map (fun p => p.1 * p.2)).sum

/-- Euclidean norm of a vector given as a list. -/
noncomputable def l2norm (v : List ℝ) : ℝ :=
  Real.sqrt ((v.map (fun x => x * x)).sum)

/-- L2 row normalisation of sklearn (`norm="l2"`); an all-zero vector is
left unchanged (in Lean division by zero yields zero, matching sklearn's
zero-row handling). -/
noncomputable def l2normalize (v : List ℝ) : List ℝ :=
  v.map (fun x => x / l2norm v)

/-- The tf-idf vector of a text over the fitted vocabulary and corpus,
before normalisation. -/
noncomputable def tfidfRaw (chunks : List Str) (vocab : List Str)
    (text : Str) : List ℝ :=
  vocab.map (fun t => (termCount t text : ℝ) * idf chunks t)

/-- A row of `self.matrix`: the L2-normalised tf-idf vector of one chunk. -/
noncomputable def tfidfRow (chunks : List Str) (vocab : List Str)
    (text : Str) : List ℝ :=
  l2normalize (tfidfRaw chunks vocab text)

/-- The machine epsilon guard `1e-10` added to norms in
`similarity_search`. -/
noncomputable def epsGuard : ℝ := 1 / 10 ^ 10

/-- The cosine score vector computed by `similarity_search`:
`(matrix @ q_vec.T) / (doc_norms * q_norm)` with the `1e-10` guards,
one entry per chunk, in chunk order. -/
noncomputable def cosineScores (chunks : List Str) (vocab : List Str)
    (query : Str) : List ℝ :=
  let qRow := tfidfRow chunks vocab query
  chunks.map (fun c =>
    dotList (tfidfRow chunks vocab c) qRow /
      ((l2norm (tfidfRow chunks vocab c) + epsGuard) *
        (l2norm qRow + epsGuard)))

/-- `np.argsort(cosine_scores)`: the indices `0..n-1` sorted by ascending
score. numpy's default quicksort leaves the order of ties unspecified;
the embedding fixes ties by a stable sort, which none of the proved
properties depend on. -/
noncomputable def argsortAsc (scores : List ℝ) : List Nat :=
  @List.insertionSort Nat (fun i j => scores.getD i 0 ≤ scores.getD j 0)
    (fun _ _ => Classical.propDecidable _) (List.range scores.length)

/-- The result-building loop of `similarity_search`
(`results.append((self.chunks[i], float(cosine_scores[i])))`); a Python
`IndexError` on either list access is embedded as `none`. -/
def collectResults (chunks : List Str) (scores : List ℝ) :
    List Nat → Option (List (Str × ℝ))
  | [] => some []
  | i :: rest =>
    match chunks.get? i, scores.get? i with
    | some c, some sc => (collectResults chunks scores rest).map
        (fun r => (c, sc) :: r)
    | _, _ => none

/-- `SimpleVectorStore.similarity_search(query, k)` from `rag_core.py`:
returns `[]` when the matrix is `None` or the query strips to empty,
otherwise the top-`k` chunks by descending cosine score. `none` embeds a
Python `IndexError` (proved unreachable below). -/
noncomputable def similaritySearch (st : SimpleVectorStore) (query : Str)
    (k : Nat) : Option (List (Str × ℝ)) :=
  match st.fitted with
  | none => some []
  | some vocab =>
    if (pyStrip query).isEmpty then some []
    else
      let scores := cosineScores st.chunks vocab query
      let idxSorted := (argsortAsc scores).reverse
      collectResults st.chunks scores (idxSorted.take k)

/-! ## Answer composer and session state from `rag_core.py`. -/

/-- The fixed empty-result message returned by `build_answer_from_passages`
when no passage was retrieved. -/
def emptyResultMsg : Str :=
  ("📘 没找到和问题强相关的内容。\n可能还没有成功解析这个文件，或者文档内容和提问差距太大。🍐").toList

/-- The fixed disclaimer closing every non-empty answer. -/
def disclaimerLine : Str :=
  ("\n✿ 提示：以上回答只来自你上传的资料（本地检索），并不是互联网通用知识。\n").toList

/-- The preview of one passage: strip, truncate to 400 characters and
append the marker " ..." when the stripped text is longer than 400. -/
def previewOf (textBlock : Str) : Str :=
  let p := pyStrip textBlock
  if p.length > 400 then p.take 400 ++ (" ...".toList) else p

/-- One passage line of the answer:
`f"\n[{idx}] 相似度 {score:.3f}\n{preview}"`. The `%.3f` float rendering
is abstracted by the formatter `fmt`. -/
def passageBlock (fmt : ℝ → Str) (idx : Nat) (p : Str × ℝ) : Str :=
  ("\n[".toList) ++ Nat.toDigits 10 idx ++ ("] 相似度 ".toList) ++ fmt p.2 ++
    ("\n".toList) ++ previewOf p.1

/-- `build_answer_from_passages(query, passages)` from `rag_core.py`,
parameterised by the float formatter `fmt` used for the similarity score
(every property proved below holds for every formatter). -/
def build_answer_from_passages (fmt : ℝ → Str) (query : Str)
    (passages : List (Str × ℝ)) : Str :=
  if passages.isEmpty then emptyResultMsg
  else
    pyJoin ("\n".toList)
      ([("🍐 你的问题： ".toList) ++ pyStrip query, [],
        ("📚 根据你上传的文档，最相关的内容是：".toList)] ++
        (List.enumFrom 1 passages).map (fun ip => passageBlock fmt ip.1 ip.2) ++
        [disclaimerLine])

/-- The fixed message `ask` returns when no vector store exists yet. -/
def noContentMsg : Str := ("还没有可检索的内容，请先上传文档 🍐").toList

/-- The session state of `RAGSessionState`: accumulated raw texts, the
current chunk list and the current vector store. -/
structure RAGSessionState where
  raw_texts : List Str
  all_chunks : List Str
  vectorstore : Option SimpleVectorStore
deriving DecidableEq, Repr

/-- `RAGSessionState.__init__`. -/
def RAGSessionState.initial : RAGSessionState := ⟨[], [], none⟩

/-- `RAGSessionState.add_document(file_bytes, filename)`. The `Bool`
component records whether the call raised (the sklearn empty-vocabulary
`ValueError` from rebuilding the store); in that case `raw_texts` and
`all_chunks` have already been mutated, exactly as in Python, while
`vectorstore` keeps its previous value. -/
def RAGSessionState.add_document (s : RAGSessionState) (fileBytes : List Nat)
    (filename : Str) : RAGSessionState × Bool :=
  let text := load_file_to_text fileBytes filename
  let rawTexts :=
    if (pyStrip text).isEmpty then s.raw_texts else s.raw_texts ++ [text]
  let merged := pyJoin ("\n\n".toList) rawTexts
  let chunks := split_text_to_chunks merged
  match build_vectorstore_from_chunks chunks with
  | .ok vs => (⟨rawTexts, chunks, vs⟩, false)
  | .error _ => (⟨rawTexts, chunks, s.vectorstore⟩, true)

/-- `RAGSessionState.ask(query)`: the fixed no-content message when no
store exists, otherwise the composed answer over the top-3 passages.
`none` embeds a Python exception escaping `ask` (proved unreachable). -/
noncomputable def RAGSessionState.ask (fmt : ℝ → Str) (s : RAGSessionState)
    (q : Str) : Option Str :=
  match s.vectorstore with
  | none => some noContentMsg
  | some st => (similaritySearch st q 3).map (build_answer_from_passages fmt q)

/-- Session states reachable from a fresh session by any sequence of
`add_document` calls, including calls that raise (in Python a raising
call has already mutated part of the state). -/
inductive ReachableAny : RAGSessionState → Prop
  | fresh : ReachableAny RAGSessionState.initial
  | step (s : RAGSessionState) (b : List Nat) (f : Str) :
      ReachableAny s → ReachableAny (s.add_document b f).1

/-- Session states reachable from a fresh session by `add_document` calls
that all return normally. -/
inductive ReachableOk : RAGSessionState → Prop
  | fresh : ReachableOk RAGSessionState.initial
  | step (s : RAGSessionState) (b : List Nat) (f : Str) :
      ReachableOk s → (s.add_document b f).2 = false →
      ReachableOk (s.add_document b f).1

/-! ## Substring, strip and join lemmas. -/

theorem SubStr.rfl (s : Str) : SubStr s s := ⟨[], [], by simp⟩

theorem subStr_nil_left (t : Str) : SubStr [] t := ⟨t, [], by simp⟩

theorem SubStr.trans {s t u : Str} (h1 : SubStr s t) (h2 : SubStr t u) :
    SubStr s u := by
  obtain ⟨a, b, hab⟩ := h1
  obtain ⟨c, d, hcd⟩ := h2
  exact ⟨c ++ a, b ++ d, by simp [hcd, hab]⟩

theorem subStr_append_left {s t : Str} (pre : Str) (h : SubStr s t) :
    SubStr s (pre ++ t) := by
  obtain ⟨a, b, hab⟩ := h
  exact ⟨pre ++ a, b, by simp [hab]⟩

theorem subStr_append_right {s t : Str} (h : SubStr s t) (post : Str) :
    SubStr s (t ++ post) := by
  obtain ⟨a, b, hab⟩ := h
  exact ⟨a, b ++ post, by simp [hab]⟩

theorem subStr_ne_nil {s t : Str} (h : SubStr s t) (hs : s ≠ []) : t ≠ [] := by
  obtain ⟨a, b, hab⟩ := h
  subst hab
  simp [hs]

theorem head?_dropWhile_eq_some {p : Char → Bool} {l : Str} {c : Char}
    (h : (l.dropWhile p).head? = some c) : p c = false := by
  have hmatch := List.head?_dropWhile_not p l
  rw [h] at hmatch
  exact hmatch

/-- The strip of a string occurs inside it. -/
theorem pyStrip_subStr (s : Str) : SubStr (pyStrip s) s := by
  obtain ⟨t1, h1⟩ : ∃ t, t ++ s.dropWhile isPySpace = s :=
    List.dropWhile_suffix isPySpace
  obtain ⟨t2, h2⟩ : ∃ t,
      t ++ (s.dropWhile isPySpace).reverse.dropWhile isPySpace =
        (s.dropWhile isPySpace).reverse :=
    List.dropWhile_suffix isPySpace
  refine ⟨t1, t2.reverse, ?_⟩
  have h3 : s.dropWhile isPySpace =
      ((s.dropWhile isPySpace).reverse.dropWhile isPySpace).reverse ++
        t2.reverse := by
    have := congrArg List.reverse h2
    simpa using this.symm
  calc s = t1 ++ s.dropWhile isPySpace := h1.symm
    _ = t1 ++ pyStrip s ++ t2.reverse := by rw [h3]; simp [pyStrip]

/-- A non-empty strip starts with a non-whitespace character. -/
theorem pyStrip_head?_not_space {s : Str} {c : Char}
    (h : (pyStrip s).head? = some c) : isPySpace c = false := by
  obtain ⟨t2, h2⟩ : ∃ t,
      t ++ (s.dropWhile isPySpace).reverse.dropWhile isPySpace =
        (s.dropWhile isPySpace).reverse :=
    List.dropWhile_suffix isPySpace
  rw [pyStrip, List.head?_reverse] at h
  have hlast : ((s.dropWhile isPySpace).reverse).getLast? = some c := by
    rw [← h2, List.getLast?_append, h]
    rfl
  rw [List.getLast?_reverse] at hlast
  exact head?_dropWhile_eq_some hlast

/-- A non-empty strip ends with a non-whitespace character. -/
theorem pyStrip_getLast?_not_space {s : Str} {c : Char}
    (h : (pyStrip s).getLast? = some c) : isPySpace c = false := by
  rw [pyStrip, List.getLast?_reverse] at h
  exact head?_dropWhile_eq_some h

theorem dropWhile_eq_self_of_head {p : Char → Bool} {v : Str} {c : Char}
    (hc : v.head? = some c) (hp : p c = false) (b : Str) :
    (v ++ b).dropWhile p = v ++ b := by
  cases v with
  | nil => simp at hc
  | cons x xs =>
    simp only [List.head?_cons, Option.some.injEq] at hc
    subst hc
    simp [List.dropWhile_cons, hp]

theorem dropWhile_append_fixed {p : Char → Bool} {rest : Str} (a : Str)
    (hrest : rest.dropWhile p = rest) :
    ∃ a2, (a ++ rest).dropWhile p = a2 ++ rest := by
  rw [List.dropWhile_append]
  by_cases hempty : (a.dropWhile p).isEmpty
  · exact ⟨[], by simp [hempty, hrest]⟩
  · exact ⟨a.dropWhile p, by simp [hempty]⟩

/-- A substring whose two ends are non-whitespace survives stripping. -/
theorem subStr_pyStrip_of_ends {v t : Str} {c c2 : Char}
    (hsub : SubStr v t) (hhead : v.head? = some c)
    (hws : isPySpace c = false) (hlast : v.getLast? = some c2)
    (hws2 : isPySpace c2 = false) : SubStr v (pyStrip t) := by
  obtain ⟨a, b, hab⟩ := hsub
  have hvb : (v ++ b).dropWhile isPySpace = v ++ b :=
    dropWhile_eq_self_of_head hhead hws b
  obtain ⟨a2, ha2⟩ : ∃ a2, (a ++ (v ++ b)).dropWhile isPySpace = a2 ++ (v ++ b) :=
    dropWhile_append_fixed a hvb
  have hstep1 : t.dropWhile isPySpace = a2 ++ v ++ b := by
    rw [hab]; simpa [List.append_assoc] using ha2
  have hrevhead : v.reverse.head? = some c2 := by
    rw [List.head?_reverse]; exact hlast
  have hva : (v.reverse ++ a2.reverse).dropWhile isPySpace =
      v.reverse ++ a2.reverse :=
    dropWhile_eq_self_of_head hrevhead hws2 a2.reverse
  obtain ⟨b2, hb2⟩ : ∃ b2,
      (b.reverse ++ (v.reverse ++ a2.reverse)).dropWhile isPySpace =
        b2 ++ (v.reverse ++ a2.reverse) :=
    dropWhile_append_fixed b.reverse hva
  have hstep2 : (t.dropWhile isPySpace).reverse.dropWhile isPySpace =
      b2 ++ v.reverse ++ a2.reverse := by
    rw [hstep1]
    simpa [List.append_assoc] using hb2
  refine ⟨a2, b2.reverse, ?_⟩
  rw [pyStrip, hstep2]
  simp

/-- Stripping preserves the substring relation. -/
theorem subStr_pyStrip_of_subStr {u t : Str} (h : SubStr u t) :
    SubStr (pyStrip u) (pyStrip t) := by
  rcases hnil : pyStrip u with _ | ⟨c, rest⟩
  · exact subStr_nil_left _
  · rw [← hnil]
    have hhead : (pyStrip u).head? = some c := by rw [hnil]; rfl
    obtain ⟨c2, hlast⟩ : ∃ c2, (pyStrip u).getLast? = some c2 := by
      rw [hnil]
      exact ⟨(c :: rest).getLast (by simp), List.getLast?_eq_getLast _ _⟩
    exact subStr_pyStrip_of_ends
      ((pyStrip_subStr u).trans h) hhead (pyStrip_head?_not_space hhead)
      hlast (pyStrip_getLast?_not_space hlast)

/-- Every member of a list occurs inside its join. -/
theorem subStr_pyJoin_of_mem {u : Str} (sep : Str) :
    ∀ {l : List Str}, u ∈ l → SubStr u (pyJoin sep l)
  | [], h => by simp at h
  | [x], h => by
    simp only [List.mem_singleton] at h
    subst h
    exact SubStr.rfl u
  | x :: y :: rest, h => by
    rcases List.mem_cons.mp h with h | h
    · subst h
      exact subStr_append_right (subStr_append_right (SubStr.rfl u) sep)
        (pyJoin sep (y :: rest))
    · exact subStr_append_left (x ++ sep) (subStr_pyJoin_of_mem sep h)

/-- A piece with visible content survives into the joined-and-stripped
document produced by `joinDocs`. -/
theorem joinDocs_mem {u : Str} {cur : List Str} (sep : Str) (hu : u ∈ cur)
    (hne : pyStrip u ≠ []) :
    ∃ c, joinDocs sep cur = some c ∧ SubStr (pyStrip u) c := by
  have hsub : SubStr (pyStrip u) (pyStrip (pyJoin sep cur)) :=
    subStr_pyStrip_of_subStr (subStr_pyJoin_of_mem sep hu)
  have hjoin : pyStrip (pyJoin sep cur) ≠ [] := subStr_ne_nil hsub hne
  refine ⟨pyStrip (pyJoin sep cur), ?_, hsub⟩
  simp only [joinDocs]
  rw [if_neg (by simpa using hjoin)]

/-- Unfolding of the merge loop on an empty current window: both overflow
branches append the new piece to a fresh window. -/
theorem mergeLoop_cons_nil (cs co : Nat) (x : Str) (rest docs : List Str)
    (total : Nat) :
    mergeLoop cs co (x :: rest) docs [] total =
      if total + x.length > cs then mergeLoop cs co rest docs [x] x.length
      else mergeLoop cs co rest docs [x] (total + x.length) := by
  simp [mergeLoop]

/-- Unfolding of the merge loop on a non-empty current window. -/
theorem mergeLoop_cons_cons (cs co : Nat) (x : Str) (rest docs : List Str)
    (c0 : Str) (cur' : List Str) (total : Nat) :
    mergeLoop cs co (x :: rest) docs (c0 :: cur') total =
      if total + x.length + 1 > cs then
        mergeLoop cs co rest (docs ++ (joinDocs ['\n'] (c0 :: cur')).toList)
          ((popLoop cs co x.length (c0 :: cur') total).1 ++ [x])
          ((popLoop cs co x.length (c0 :: cur') total).2 + x.length +
            (if (popLoop cs co x.length (c0 :: cur') total).1.isEmpty then 0
              else 1))
      else mergeLoop cs co rest docs (c0 :: (cur' ++ [x]))
        (total + x.length + 1) := by
  simp [mergeLoop]

/-- Chunks already emitted are kept by the rest of the merge loop. -/
theorem mem_mergeLoop_of_mem_docs (cs co : Nat) (splits : List Str) :
    ∀ (docs cur : List Str) (total : Nat) (d : Str), d ∈ docs →
      d ∈ mergeLoop cs co splits docs cur total := by
  induction splits with
  | nil =>
    intro docs cur total d hd
    simp only [mergeLoop]
    exact List.mem_append_left _ hd
  | cons x rest ih =>
    intro docs cur total d hd
    rcases cur with _ | ⟨c0, cur'⟩
    · rw [mergeLoop_cons_nil]
      split
      · exact ih docs [x] x.length d hd
      · exact ih docs [x] _ d hd
    · rw [mergeLoop_cons_cons]
      split
      · exact ih _ _ _ d (List.mem_append_left _ hd)
      · exact ih docs _ _ d hd

/-- Every piece with visible content that is still pending (in `splits` or
in the current window) survives into some chunk emitted by the merge
loop. -/
theorem mergeLoop_content (cs co : Nat) (splits : List Str) :
    ∀ (docs cur : List Str) (total : Nat) (u : Str),
      u ∈ splits ∨ u ∈ cur → pyStrip u ≠ [] →
      ∃ c, c ∈ mergeLoop cs co splits docs cur total ∧
        SubStr (pyStrip u) c := by
  induction splits with
  | nil =>
    intro docs cur total u hu hne
    simp only [mergeLoop]
    rcases hu with h | h
    · simp at h
    · obtain ⟨c, hc, hsub⟩ := joinDocs_mem ['\n'] h hne
      exact ⟨c, List.mem_append_right _ (by simp [hc]), hsub⟩
  | cons x rest ih =>
    intro docs cur total u hu hne
    rcases cur with _ | ⟨c0, cur'⟩
    · rw [mergeLoop_cons_nil]
      have hu' : u ∈ rest ∨ u ∈ [x] := by
        rcases hu with h | h
        · rcases List.mem_cons.mp h with h | h
          · subst h; right; simp
          · left; exact h
        · simp at h
      split
      · exact ih docs [x] x.length u hu' hne
      · exact ih docs [x] _ u hu' hne
    · rw [mergeLoop_cons_cons]
      split
      · rcases hu with h | h
        · rcases List.mem_cons.mp h with h | h
          · subst h
            apply ih _ _ _ u _ hne
            right
            simp
          · exact ih _ _ _ u (Or.inl h) hne
        · obtain ⟨c, hc, hsub⟩ := joinDocs_mem ['\n'] h hne
          refine ⟨c, ?_, hsub⟩
          apply mem_mergeLoop_of_mem_docs
          exact List.mem_append_right _ (by simp [hc])
      · apply ih docs (c0 :: (cur' ++ [x])) _ u _ hne
        rcases hu with h | h
        · rcases List.mem_cons.mp h with h | h
          · subst h; right; simp
          · left; exact h
        · right
          rcases List.mem_cons.mp h with h | h
          · subst h; simp
          · simp [h]

/-! ## Vector store lemmas. -/

theorem build_vectorstore_nil : build_vectorstore_from_chunks [] = .ok none :=
  rfl

theorem build_vectorstore_ok_some {chunks : List Str}
    {st : SimpleVectorStore}
    (h : build_vectorstore_from_chunks chunks = .ok (some st)) :
    st.chunks = chunks ∧ st.fitted = some (buildVocab chunks) ∧
      chunks ≠ [] := by
  unfold build_vectorstore_from_chunks SimpleVectorStore.init at h
  by_cases h1 : chunks.isEmpty
  · rw [if_pos h1] at h
    cases h
  · rw [if_neg h1, if_neg h1] at h
    by_cases h2 : buildVocab chunks = []
    · rw [if_pos h2] at h
      cases h
    · rw [if_neg h2] at h
      simp only [Except.map, Except.ok.injEq, Option.some.injEq] at h
      subst h
      exact ⟨rfl, rfl, by simpa using h1⟩

theorem build_vectorstore_error_iff (chunks : List Str) :
    build_vectorstore_from_chunks chunks = .error () ↔
      chunks ≠ [] ∧ buildVocab chunks = [] := by
  unfold build_vectorstore_from_chunks SimpleVectorStore.init
  by_cases h1 : chunks.isEmpty
  · rw [if_pos h1]
    simp [List.isEmpty_iff.mp h1]
  · rw [if_neg h1, if_neg h1]
    by_cases h2 : buildVocab chunks = []
    · rw [if_pos h2]
      constructor
      · intro _
        exact ⟨fun hnil => h1 (by simp [hnil]), h2⟩
      · intro _
        rfl
    · rw [if_neg h2]
      simp [Except.map, h2]

theorem cosineScores_length (chunks vocab : List Str) (q : Str) :
    (cosineScores chunks vocab q).length = chunks.length := by
  simp [cosineScores]

theorem argsortAsc_perm (scores : List ℝ) :
    (argsortAsc scores).Perm (List.range scores.length) := by
  unfold argsortAsc
  exact List.perm_insertionSort _ _

theorem argsortAsc_sorted (scores : List ℝ) :
    List.Sorted (fun i j => scores.getD i 0 ≤ scores.getD j 0)
      (argsortAsc scores) := by
  unfold argsortAsc
  haveI : IsTotal Nat (fun i j => scores.getD i 0 ≤ scores.getD j 0) :=
    ⟨fun a b => le_total _ _⟩
  haveI : IsTrans Nat (fun i j => scores.getD i 0 ≤ scores.getD j 0) :=
    ⟨fun a b c hab hbc => le_trans hab hbc⟩
  exact List.sorted_insertionSort _ _

theorem collectResults_eq_map (chunks : List Str) (scores : List ℝ) :
    ∀ idxs : List Nat, (∀ i ∈ idxs, i < chunks.length) →
      scores.length = chunks.length →
      collectResults chunks scores idxs =
        some (idxs.map (fun i => (chunks.getD i [], scores.getD i 0))) := by
  intro idxs
  induction idxs with
  | nil => intro _ _; rfl
  | cons i rest ih =>
    intro hmem hlen
    have hi : i < chunks.length := hmem i (by simp)
    have hi2 : i < scores.length := by omega
    have hc : chunks.get? i = some (chunks.getD i []) := by
      rw [List.get?_eq_getElem?, List.getElem?_eq_getElem hi,
        List.getD_eq_getElem?_getD, List.getElem?_eq_getElem hi]
      rfl
    have hs : scores.get? i = some (scores.getD i 0) := by
      rw [List.get?_eq_getElem?, List.getElem?_eq_getElem hi2,
        List.getD_eq_getElem?_getD, List.getElem?_eq_getElem hi2]
      rfl
    have hrest := ih (fun j hj => hmem j (List.mem_cons_of_mem i hj)) hlen
    simp only [collectResults, hc, hs, hrest, List.map_cons]
    rfl

/-- On an empty-after-strip query the search returns the empty list
without touching the vectorizer or the scores. -/
theorem similaritySearch_empty_query (st : SimpleVectorStore) (q : Str)
    (k : Nat) (hq : (pyStrip q).isEmpty) :
    similaritySearch st q k = some [] := by
  unfold similaritySearch
  split
  · rfl
  · rw [if_pos hq]

/-- Full behavioural specification of `similarity_search`: it never hits
an `IndexError`, returns at most `min k (number of chunks)` results whose
scores are non-increasing, and only ever returns stored chunks. -/
theorem similaritySearch_spec (st : SimpleVectorStore) (q : Str) (k : Nat) :
    ∃ res, similaritySearch st q k = some res ∧
      res.length ≤ min k st.chunks.length ∧
      List.Pairwise (fun p1 p2 : Str × ℝ => p2.2 ≤ p1.2) res ∧
      ∀ p ∈ res, p.1 ∈ st.chunks := by
  unfold similaritySearch
  split
  · exact ⟨[], rfl, by simp, by simp, by simp⟩
  · rename_i vocab hf
    by_cases hq : (pyStrip q).isEmpty
    · rw [if_pos hq]
      exact ⟨[], rfl, by simp, by simp, by simp⟩
    · rw [if_neg hq]
      have hlen : (cosineScores st.chunks vocab q).length = st.chunks.length :=
        cosineScores_length st.chunks vocab q
      have hmem : ∀ i ∈ ((argsortAsc (cosineScores st.chunks vocab q)).reverse.take k),
          i < st.chunks.length := by
        intro i hi
        have h2 : i ∈ argsortAsc (cosineScores st.chunks vocab q) := by
          have := List.mem_of_mem_take hi
          simpa using this
        have h3 := (argsortAsc_perm (cosineScores st.chunks vocab q)).mem_iff.mp h2
        rw [List.mem_range, hlen] at h3
        exact h3
      rw [collectResults_eq_map st.chunks (cosineScores st.chunks vocab q) _ hmem hlen]
      refine ⟨_, rfl, ?_, ?_, ?_⟩
      · rw [List.length_map, List.length_take, List.length_reverse,
          (argsortAsc_perm (cosineScores st.chunks vocab q)).length_eq,
          List.length_range, hlen]
      · rw [List.pairwise_map]
        have hrev : List.Pairwise
            (fun i j => (cosineScores st.chunks vocab q).getD j 0 ≤
              (cosineScores st.chunks vocab q).getD i 0)
            (argsortAsc (cosineScores st.chunks vocab q)).reverse :=
          List.pairwise_reverse.mpr (argsortAsc_sorted _)
        exact hrev.sublist (List.take_sublist _ _)
      · intro p hp
        rw [List.mem_map] at hp
        obtain ⟨i, hi, hpi⟩ := hp
        have hlt := hmem i hi
        have : st.chunks.getD i [] ∈ st.chunks := by
          rw [List.getD_eq_getElem?_getD, List.getElem?_eq_getElem hlt]
          exact List.getElem_mem hlt
        rw [← hpi]
        exact this

/-- `ask` always returns a string: the only Python exception that could
escape it would be an `IndexError` inside `similarity_search`, which
cannot occur. -/
theorem ask_isSome (fmt : ℝ → Str) (s : RAGSessionState) (q : Str) :
    ∃ t, RAGSessionState.ask fmt s q = some t := by
  unfold RAGSessionState.ask
  split
  · exact ⟨noContentMsg, rfl⟩
  · rename_i st heq
    obtain ⟨res, hres, _⟩ := similaritySearch_spec st q 3
    exact ⟨build_answer_from_passages fmt q res, by rw [hres]; rfl⟩

/-! ## `add_document` characterisation lemmas. -/

theorem split_text_to_chunks_nil (cs co : Nat) :
    split_text_to_chunks [] cs co = [] := rfl

theorem pyJoin_nil (sep : Str) : pyJoin sep [] = [] := rfl

theorem add_document_raw_texts (s : RAGSessionState) (b : List Nat)
    (f : Str) :
    (s.add_document b f).1.raw_texts =
      if (pyStrip (load_file_to_text b f)).isEmpty then s.raw_texts
      else s.raw_texts ++ [load_file_to_text b f] := by
  simp only [RAGSessionState.add_document]
  split
  · rfl
  · rfl

theorem add_document_chunks (s : RAGSessionState) (b : List Nat) (f : Str) :
    (s.add_document b f).1.all_chunks =
      split_text_to_chunks
        (pyJoin ("\n\n".toList) (s.add_document b f).1.raw_texts) 500 100 := by
  simp only [RAGSessionState.add_document]
  split
  · rfl
  · rfl

theorem add_document_ok_build (s : RAGSessionState) (b : List Nat) (f : Str)
    (h : (s.add_document b f).2 = false) :
    build_vectorstore_from_chunks (s.add_document b f).1.all_chunks =
      .ok (s.add_document b f).1.vectorstore := by
  revert h
  simp only [RAGSessionState.add_document]
  split
  · rename_i vs heq
    intro _
    exact heq
  · intro h
    cases h

theorem add_document_raised (s : RAGSessionState) (b : List Nat) (f : Str)
    (h : (s.add_document b f).2 = true) :
    build_vectorstore_from_chunks (s.add_document b f).1.all_chunks =
        .error () ∧
      (s.add_document b f).1.vectorstore = s.vectorstore := by
  revert h
  simp only [RAGSessionState.add_document]
  split
  · intro h
    cases h
  · rename_i e heq
    intro _
    exact ⟨heq, rfl⟩

theorem add_document_raised_iff (s : RAGSessionState) (b : List Nat)
    (f : Str) :
    (s.add_document b f).2 = true ↔
      ((s.add_document b f).1.all_chunks ≠ [] ∧
        buildVocab (s.add_document b f).1.all_chunks = []) := by
  constructor
  · intro h
    have := (add_document_raised s b f h).1
    rw [build_vectorstore_error_iff] at this
    exact this
  · intro hcond
    by_contra hraise
    rw [Bool.not_eq_true] at hraise
    have hok := add_document_ok_build s b f hraise
    have herr := (build_vectorstore_error_iff _).mpr hcond
    rw [hok] at herr
    cases herr

/-- An empty document list forces an empty store, on every state reachable
by any sequence of `add_document` calls (raising or not). -/
theorem reachable_empty_raw (s : RAGSessionState) (h : ReachableAny s)
    (hraw : s.raw_texts = []) : s.vectorstore = none := by
  induction h with
  | fresh => rfl
  | step s' b f hs ih =>
    have hch := add_document_chunks s' b f
    rw [hraw] at hch
    rw [pyJoin_nil, split_text_to_chunks_nil] at hch
    cases hb : (s'.add_document b f).2 with
    | false =>
      have hok := add_document_ok_build s' b f hb
      rw [hch, build_vectorstore_nil] at hok
      have := Except.ok.inj hok
      exact this.symm
    | true =>
      have herr := (add_document_raised s' b f hb).1
      rw [hch, build_vectorstore_nil] at herr
      cases herr

/-! ## Join lemmas for the answer composer. -/

theorem pyJoin_cons (sep x : Str) (l : List Str) (h : l ≠ []) :
    pyJoin sep (x :: l) = x ++ sep ++ pyJoin sep l := by
  cases l with
  | nil => exact absurd rfl h
  | cons y rest => rfl

theorem pyJoin_append_last (sep D : Str) :
    ∀ blocks : List Str, pyJoin sep (blocks ++ [D]) =
      (blocks.map (fun b => b ++ sep)).flatten ++ D := by
  intro blocks
  induction blocks with
  | nil => rfl
  | cons b bs ih =>
    rw [List.cons_append, pyJoin_cons _ _ _ (by simp), ih]
    simp [List.append_assoc]

/-- The consistency invariant of `RAGSessionState`: the chunk list is the
chunking of the joined documents, and the store is the (successful) build
over the chunk list. -/
def sessionInvariant (s : RAGSessionState) : Prop :=
  s.all_chunks =
      split_text_to_chunks (pyJoin ("\n\n".toList) s.raw_texts) 500 100 ∧
    build_vectorstore_from_chunks s.all_chunks = .ok s.vectorstore

/-! ## Claim theorems. -/

/-- C10: `load_file_to_text` never raises (it is total) and returns
exactly the lossy UTF-8 decoding of the bytes, a possibly empty string;
the result does not depend on the filename. The cp949 fallback and the
final empty-string return are unreachable because decoding with
`errors="ignore"` is total, which is why the embedding of the function
reduces to the decoder itself. -/
theorem claim_C10 (b : List Nat) (f g : Str) :
    load_file_to_text b f = utf8DecodeIgnore b ∧
      load_file_to_text b f = load_file_to_text b g :=
  ⟨rfl, rfl⟩

/-- C7: `add_document` with content that strips to empty (whitespace-only
or undecodable bytes) leaves the stored document list unchanged on every
session; from a fresh session both document count and chunk count stay
zero. -/
theorem claim_C7 (s : RAGSessionState) (b : List Nat) (f : Str)
    (h : pyStrip (utf8DecodeIgnore b) = []) :
    (s.add_document b f).1.raw_texts = s.raw_texts ∧
      (RAGSessionState.initial.add_document b f).1.raw_texts.length = 0 ∧
      (RAGSessionState.initial.add_document b f).1.all_chunks.length = 0 := by
  have h1 : ∀ (s' : RAGSessionState) (f' : Str),
      (s'.add_document b f').1.raw_texts = s'.raw_texts := by
    intro s' f'
    rw [add_document_raw_texts, if_pos]
    rw [List.isEmpty_iff]
    exact h
  refine ⟨h1 s f, ?_, ?_⟩
  · rw [h1 RAGSessionState.initial f]
    rfl
  · rw [add_document_chunks, h1 RAGSessionState.initial f]
    rfl

/-- C7 witness: the undecodable-then-whitespace upload `b"\xff "` to a
fresh session is a no-op. -/
theorem claim_C7_witness :
    (RAGSessionState.initial.add_document [255, 32] ("w.txt".toList)).1.raw_texts =
        RAGSessionState.initial.raw_texts ∧
      (RAGSessionState.initial.add_document [255, 32]
          ("w.txt".toList)).1.raw_texts.length = 0 ∧
      (RAGSessionState.initial.add_document [255, 32]
          ("w.txt".toList)).1.all_chunks.length = 0 :=
  claim_C7 RAGSessionState.initial [255, 32] ("w.txt".toList) (by decide)

/-- C5: building over the empty chunk list yields the `None` sentinel, and
on every reachable session with zero documents the store is `None` and
`ask` returns the fixed upload-first message for every query and score
formatter, never raising. -/
theorem claim_C5 (s : RAGSessionState) (h : ReachableAny s)
    (hraw : s.raw_texts = []) :
    build_vectorstore_from_chunks [] = .ok none ∧
      s.vectorstore = none ∧
      ∀ (fmt : ℝ → Str) (q : Str),
        RAGSessionState.ask fmt s q = some noContentMsg := by
  have hv := reachable_empty_raw s h hraw
  refine ⟨rfl, hv, ?_⟩
  intro fmt q
  unfold RAGSessionState.ask
  rw [hv]

/-- C5 witness: the fresh session. -/
theorem claim_C5_witness :
    build_vectorstore_from_chunks [] = .ok none ∧
      RAGSessionState.initial.vectorstore = none ∧
      RAGSessionState.ask (fun _ => []) RAGSessionState.initial
        ("hi".toList) = some noContentMsg := by
  obtain ⟨h1, h2, h3⟩ := claim_C5 RAGSessionState.initial ReachableAny.fresh rfl
  exact ⟨h1, h2, h3 (fun _ => []) ("hi".toList)⟩

/-- C6: on a store holding a built index, an empty-after-strip query makes
`similarity_search` return the empty list through the early guard (before
any vectorizer work), and `ask` on a session holding an index returns
exactly the empty-result message of the answer composer. -/
theorem claim_C6 (st : SimpleVectorStore) (s : RAGSessionState)
    (fmt : ℝ → Str) (q : Str) (k : Nat)
    (hfit : st.fitted.isSome = true)
    (hst : s.vectorstore = some st) (hq : pyStrip q = []) :
    similaritySearch st q k = some [] ∧
      RAGSessionState.ask fmt s q =
        some (build_answer_from_passages fmt q []) ∧
      build_answer_from_passages fmt q [] = emptyResultMsg := by
  have hq2 : (pyStrip q).isEmpty := by rw [hq]; rfl
  refine ⟨similaritySearch_empty_query st q k hq2, ?_, rfl⟩
  unfold RAGSessionState.ask
  rw [hst]
  show Option.map (build_answer_from_passages fmt q)
    (similaritySearch st q 3) = some (build_answer_from_passages fmt q [])
  rw [similaritySearch_empty_query st q 3 hq2]
  rfl

/-- C6 witness: a one-document session and the whitespace query `" "`. -/
theorem claim_C6_witness :
    similaritySearch
        ⟨[("hello world".toList)],
          some [("hello".toList), ("world".toList)]⟩ (" ".toList) 3 =
        some [] ∧
      RAGSessionState.ask (fun _ => [])
          ((RAGSessionState.initial.add_document
            (("hello world".toList).map Char.toNat) ("a.txt".toList)).1)
          (" ".toList) =
        some (build_answer_from_passages (fun _ => []) (" ".toList) []) ∧
      build_answer_from_passages (fun _ => []) (" ".toList) [] =
        emptyResultMsg :=
  claim_C6
    ⟨[("hello world".toList)], some [("hello".toList), ("world".toList)]⟩
    ((RAGSessionState.initial.add_document
      (("hello world".toList).map Char.toNat) ("a.txt".toList)).1)
    (fun _ => []) (" ".toList) 3 (by decide) (by decide) (by decide)

/-- C9: the chunker drops no visible content — for every configuration
with overlap < size, every separator-delimited piece of the input whose
strip is non-empty reappears (stripped) inside some produced chunk — and
empty input yields the empty chunk sequence. -/
theorem claim_C9 (text : Str) (cs co : Nat) (hlt : co < cs) :
    (∀ u ∈ splitKeepNonEmpty text, pyStrip u ≠ [] →
        ∃ c, c ∈ split_text_to_chunks text cs co ∧ SubStr (pyStrip u) c) ∧
      split_text_to_chunks [] cs co = [] := by
  refine ⟨?_, split_text_to_chunks_nil cs co⟩
  intro u hu hne
  exact mergeLoop_content cs co _ [] [] 0 u (Or.inl hu) hne

/-- C9 witness: both lines of `"ab\ncd"` survive into the chunks. -/
theorem claim_C9_witness :
    ∃ c, c ∈ split_text_to_chunks ("ab\ncd".toList) 500 100 ∧
      SubStr (pyStrip ("ab".toList)) c :=
  (claim_C9 ("ab\ncd".toList) 500 100 (by decide)).1 ("ab".toList)
    (by decide) (by decide)

/-- C3: `similarity_search` on a store built from a non-empty chunk list
returns, for every query and every k, at most `min k (number of chunks)`
scored passages, in non-increasing score order, and every returned passage
text is one of the chunks. -/
theorem claim_C3 (chunks : List Str) (q : Str) (k : Nat)
    (st : SimpleVectorStore) (hne : chunks ≠ [])
    (hbuild : build_vectorstore_from_chunks chunks = .ok (some st)) :
    ∃ res, similaritySearch st q k = some res ∧
      res.length ≤ min k chunks.length ∧
      List.Pairwise (fun p1 p2 : Str × ℝ => p2.2 ≤ p1.2) res ∧
      ∀ p ∈ res, p.1 ∈ chunks := by
  obtain ⟨hc, hf, _⟩ := build_vectorstore_ok_some hbuild
  obtain ⟨res, h1, h2, h3, h4⟩ := similaritySearch_spec st q k
  rw [hc] at h2 h4
  exact ⟨res, h1, h2, h3, h4⟩

/-- C3 witness: the store over the single chunk `"hello world"`. -/
theorem claim_C3_witness :
    ∃ res, similaritySearch
        ⟨[("hello world".toList)],
          some [("hello".toList), ("world".toList)]⟩ ("hello".toList) 3 =
        some res ∧
      res.length ≤ min 3 [("hello world".toList)].length ∧
      List.Pairwise (fun p1 p2 : Str × ℝ => p2.2 ≤ p1.2) res ∧
      ∀ p ∈ res, p.1 ∈ [("hello world".toList)] :=
  claim_C3 [("hello world".toList)] ("hello".toList) 3
    ⟨[("hello world".toList)], some [("hello".toList), ("world".toList)]⟩
    (by decide) rfl

/-- C4 counterexample: the claim fails as stated. The `add_document` call
on the token-free content `b"!!!"` raises inside the store rebuild after
`raw_texts` and `all_chunks` were already reassigned, so the reachable
post-state carries a stale `vectorstore` (still `None`) that no longer
matches its non-empty chunk list. -/
theorem claim_C4_counterexample :
    ReachableAny
        (RAGSessionState.initial.add_document [33, 33, 33]
          ("f.txt".toList)).1 ∧
      ¬ sessionInvariant
        (RAGSessionState.initial.add_document [33, 33, 33]
          ("f.txt".toList)).1 := by
  refine ⟨ReachableAny.step _ _ _ ReachableAny.fresh, ?_⟩
  rintro ⟨h1, h2⟩
  have herr : build_vectorstore_from_chunks
      (RAGSessionState.initial.add_document [33, 33, 33]
        ("f.txt".toList)).1.all_chunks = .error () := rfl
  rw [herr] at h2
  exact Except.noConfusion h2

/-- C4 amended: on every session reachable by `add_document` calls that
return normally (no sklearn empty-vocabulary error), `all_chunks` is
exactly the chunking of the blank-line join of `raw_texts` and
`vectorstore` is exactly the store built from `all_chunks` — no stale
derived state. -/
theorem claim_C4 (s : RAGSessionState) (h : ReachableOk s) :
    sessionInvariant s := by
  induction h with
  | fresh => exact ⟨rfl, rfl⟩
  | step s' b f hs hok ih =>
    exact ⟨add_document_chunks s' b f, add_document_ok_build s' b f hok⟩

/-- C4 witness: the fresh session satisfies the invariant. -/
theorem claim_C4_witness : sessionInvariant RAGSessionState.initial :=
  claim_C4 RAGSessionState.initial ReachableOk.fresh

/-- C1 counterexample: the claim fails as stated. On the reachable fresh
session, `add_document` with the bytes `b"!!!"` (decodable, non-empty
after strip, but containing no token of two or more word characters)
raises sklearn's empty-vocabulary `ValueError` from `fit_transform`. -/
theorem claim_C1_counterexample :
    ReachableAny RAGSessionState.initial ∧
      (RAGSessionState.initial.add_document [33, 33, 33]
        ("f.txt".toList)).2 = true :=
  ⟨ReachableAny.fresh, by decide⟩

/-- C1 amended: `ask` always returns a string, on every session state and
query. `add_document` can raise — sklearn's empty-vocabulary `ValueError`
escapes whenever the rebuilt chunk list is non-empty yet yields no token
(witnessed by the counterexample above) — and for every call whose
rebuilt chunk text is ASCII (where the embedded tokenizer coincides
exactly with sklearn's `\w\w+` pattern) it raises precisely when the
non-empty chunk list contains no token of two or more word characters.
The ASCII hypothesis scopes the characterisation to inputs on which the
word-character classification is exact; the model satisfies the
equivalence on all inputs, but only on ASCII content does it speak for
the program. -/
theorem claim_C1 :
    (∀ (fmt : ℝ → Str) (s : RAGSessionState) (q : Str),
        ∃ t, RAGSessionState.ask fmt s q = some t) ∧
      ∀ (s : RAGSessionState) (b : List Nat) (f : Str),
        (∀ ch ∈ (s.add_document b f).1.all_chunks, ∀ c ∈ ch,
            c.toNat < 128) →
          ((s.add_document b f).2 = true ↔
            ((s.add_document b f).1.all_chunks ≠ [] ∧
              buildVocab (s.add_document b f).1.all_chunks = [])) :=
  ⟨ask_isSome, fun s b f _ => add_document_raised_iff s b f⟩

/-- C1 witness: the characterisation applied to the all-ASCII raising
input `b"!!!"` on a fresh session. -/
theorem claim_C1_witness :
    (RAGSessionState.initial.add_document [33, 33, 33]
        ("f.txt".toList)).2 = true ↔
      ((RAGSessionState.initial.add_document [33, 33, 33]
          ("f.txt".toList)).1.all_chunks ≠ [] ∧
        buildVocab (RAGSessionState.initial.add_document [33, 33, 33]
          ("f.txt".toList)).1.all_chunks = []) :=
  claim_C1.2 RAGSessionState.initial [33, 33, 33] ("f.txt".toList)
    (by decide)

/-- The session of end-to-end scenario D: a fresh session after adding the
documents "apples are red" and "bananas are yellow". -/
def scenarioDState : RAGSessionState :=
  ((RAGSessionState.initial.add_document
      (("apples are red".toList).map Char.toNat) ("a.txt".toList)).1.add_document
    (("bananas are yellow".toList).map Char.toNat) ("b.txt".toList)).1

/-- The single chunk the two scenario-D documents are merged into (the
paragraph separator between them collapses to the merge separator). -/
def scenarioDChunk : Str := ("apples are red\nbananas are yellow".toList)

/-- The fitted store of scenario D. -/
def scenarioDStore : SimpleVectorStore :=
  ⟨[scenarioDChunk],
    some [("apples".toList), ("are".toList), ("bananas".toList),
      ("red".toList), ("yellow".toList)]⟩

/-- C2 counterexample: the claim fails as stated. After the two adds both
texts live in one single chunk, so `ask("apple")` retrieves exactly one
passage and there is no lower-ranked passage holding "bananas are yellow"
for the top passage to be ranked above. -/
theorem claim_C2_counterexample :
    ¬ ∃ (st : SimpleVectorStore) (res : List (Str × ℝ)) (j : Nat)
        (p0 pj : Str × ℝ),
        scenarioDState.vectorstore = some st ∧
        similaritySearch st ("apple".toList) 3 = some res ∧
        res.get? 0 = some p0 ∧ SubStr ("apples are red".toList) p0.1 ∧
        0 < j ∧ res.get? j = some pj ∧
        SubStr ("bananas are yellow".toList) pj.1 := by
  rintro ⟨st, res, j, p0, pj, hst, hres, h0, hsub0, hj, hjget, hsubj⟩
  have hst2 : scenarioDState.vectorstore = some scenarioDStore := by decide
  rw [hst2] at hst
  injection hst with hst
  subst hst
  have hlen : (similaritySearch scenarioDStore ("apple".toList) 3).map
      List.length = some 1 := rfl
  rw [hres] at hlen
  simp only [Option.map_some'] at hlen
  injection hlen with hlen
  have hnone : res.get? j = none := by
    rw [List.get?_eq_none]
    omega
  rw [hnone] at hjget
  exact Option.noConfusion hjget

/-- C2 amended: after the two adds the session holds exactly one chunk,
containing both "apples are red" and "bananas are yellow"; `ask("apple")`
retrieves that chunk as the top (and only) passage — there is no second
chunk ranked below it. -/
theorem claim_C2 :
    scenarioDState.all_chunks = [scenarioDChunk] ∧
      SubStr ("apples are red".toList) scenarioDChunk ∧
      SubStr ("bananas are yellow".toList) scenarioDChunk ∧
      scenarioDState.vectorstore = some scenarioDStore ∧
      ∃ score, similaritySearch scenarioDStore ("apple".toList) 3 =
        some [(scenarioDChunk, score)] := by
  refine ⟨by decide, ⟨[], ("\nbananas are yellow".toList), by decide⟩,
    ⟨("apples are red\n".toList), [], by decide⟩, by decide, ?_⟩
  exact ⟨_, rfl⟩

/-- The exact shape of a non-empty answer: echoed stripped query, header,
one block per passage in input order (1-based index, formatted score,
truncated preview), and the fixed disclaimer. -/
theorem build_answer_shape (fmt : ℝ → Str) (q : Str)
    (ps : List (Str × ℝ)) (hne : ps ≠ []) :
    build_answer_from_passages fmt q ps =
      ("🍐 你的问题： ".toList) ++ pyStrip q ++
        ("\n\n📚 根据你上传的文档，最相关的内容是：\n".toList) ++
        ((List.enumFrom 1 ps).map (fun ip =>
          ("\n[".toList) ++ Nat.toDigits 10 ip.1 ++ ("] 相似度 ".toList) ++
            fmt ip.2.2 ++ ("\n".toList) ++
            (if 400 < (pyStrip ip.2.1).length then
                (pyStrip ip.2.1).take 400 ++ (" ...".toList)
              else pyStrip ip.2.1) ++ ("\n".toList))).flatten ++
        disclaimerLine := by
  unfold build_answer_from_passages
  rw [if_neg (by simpa using hne)]
  simp only [List.cons_append, List.nil_append]
  rw [pyJoin_cons _ _ _ (by simp), pyJoin_cons _ _ _ (by simp),
    pyJoin_cons _ _ _ (by simp), pyJoin_append_last]
  simp only [passageBlock, previewOf, List.map_map]
  rw [show ("\n\n📚 根据你上传的文档，最相关的内容是：\n".toList) =
    ("\n".toList) ++ ("\n".toList) ++
      ("📚 根据你上传的文档，最相关的内容是：".toList) ++ ("\n".toList) from by decide]
  simp [Function.comp_def, List.append_assoc]

/-- C8: the answer composer returns the fixed empty-result message exactly
when the passage list is empty; a non-empty passage list produces, in
order, the echoed trimmed query, the header, for each passage in input
order its 1-based index, its formatted similarity score and its preview
truncated at 400 characters with the marker appended exactly when the
stripped text exceeds 400 characters, and the fixed disclaimer. The
function is pure, hence deterministic in its inputs. -/
theorem claim_C8 (fmt : ℝ → Str) (q : Str) (ps : List (Str × ℝ)) :
    (build_answer_from_passages fmt q ps = emptyResultMsg ↔ ps = []) ∧
      (ps ≠ [] → build_answer_from_passages fmt q ps =
        ("🍐 你的问题： ".toList) ++ pyStrip q ++
          ("\n\n📚 根据你上传的文档，最相关的内容是：\n".toList) ++
          ((List.enumFrom 1 ps).map (fun ip =>
            ("\n[".toList) ++ Nat.toDigits 10 ip.1 ++ ("] 相似度 ".toList) ++
              fmt ip.2.2 ++ ("\n".toList) ++
              (if 400 < (pyStrip ip.2.1).length then
                  (pyStrip ip.2.1).take 400 ++ (" ...".toList)
                else pyStrip ip.2.1) ++ ("\n".toList))).flatten ++
          disclaimerLine) ∧
      ∀ t : Str,
        (400 < (pyStrip t).length →
            previewOf t = (pyStrip t).take 400 ++ (" ...".toList)) ∧
          (¬ 400 < (pyStrip t).length → previewOf t = pyStrip t) ∧
          (previewOf t).length ≤ 404 := by
  refine ⟨⟨?_, ?_⟩, build_answer_shape fmt q ps, ?_⟩
  · intro heq
    by_contra hne
    rw [build_answer_shape fmt q ps hne] at heq
    rw [show ("🍐 你的问题： ".toList) =
      '🍐' :: (" 你的问题： ".toList) from rfl] at heq
    simp only [List.cons_append] at heq
    rw [show emptyResultMsg = '📘' ::
      ((" 没找到和问题强相关的内容。\n可能还没有成功解析这个文件，或者文档内容和提问差距太大。🍐").toList)
      from rfl] at heq
    injection heq with h1 _
    exact absurd h1 (by decide)
  · intro h
    subst h
    rfl
  · intro t
    refine ⟨?_, ?_, ?_⟩
    · intro h
      simp only [previewOf]
      rw [if_pos h]
    · intro h
      simp only [previewOf]
      rw [if_neg h]
    · by_cases h : 400 < (pyStrip t).length
      · simp only [previewOf]
        rw [if_pos h]
        simp only [List.length_append, List.length_take]
        have : (" ...".toList).length = 4 := rfl
        omega
      · simp only [previewOf]
        rw [if_neg h]
        omega

/-- C8 witness: the composed answer over one concrete passage. -/
theorem claim_C8_witness :
    build_answer_from_passages (fun _ => []) ("hi".toList)
        [(("abc".toList), (0 : ℝ))] =
      ("🍐 你的问题： ".toList) ++ pyStrip ("hi".toList) ++
        ("\n\n📚 根据你上传的文档，最相关的内容是：\n".toList) ++
        ((List.enumFrom 1 [(("abc".toList), (0 : ℝ))]).map (fun ip =>
          ("\n[".toList) ++ Nat.toDigits 10 ip.1 ++ ("] 相似度 ".toList) ++
            (fun _ : ℝ => ([] : Str)) ip.2.2 ++ ("\n".toList) ++
            (if 400 < (pyStrip ip.2.1).length then
                (pyStrip ip.2.1).take 400 ++ (" ...".toList)
              else pyStrip ip.2.1) ++ ("\n".toList))).flatten ++
        disclaimerLine :=
  (claim_C8 (fun _ => []) ("hi".toList) [(("abc".toList), (0 : ℝ))]).2.1
    (List.cons_ne_nil _ _)
